import Mathlib

/-!
Verification development for the dual-letter geometry generator
(`src/services/geometry/generator.ts`).

The pipeline turns two text strings into one 3D-printable solid.  The
boolean solid kernel (Manifold) is opaque; a solid is modelled here by the
data the generator itself inspects: its axis-aligned bounding box and, where
the code decomposes a solid, the list of its components' bounding boxes.
Kernel calls whose numeric results the generator merely threads through
(intersection results, post-bridge boxes, decompositions, union failures)
are modelled as explicit inputs/oracles.  All coordinates are rationals;
the source's decimal literals appear as exact fractions (0.2 = 1/5,
0.4 = 2/5, 0.001 = 1/1000, 0.000001 = 1/1000000, 0.9 = 9/10).
-/

namespace DualGen

/-- Axis-aligned 3D bounding box, mirroring Manifold's `boundingBox()`
result `{min: [x,y,z], max: [x,y,z]}`. -/
structure Box3 where
  minX : ℚ
  minY : ℚ
  minZ : ℚ
  maxX : ℚ
  maxY : ℚ
  maxZ : ℚ
deriving DecidableEq, Repr

def Box3.width (b : Box3) : ℚ := b.maxX - b.minX

def Box3.height (b : Box3) : ℚ := b.maxY - b.minY

def Box3.centerX (b : Box3) : ℚ := (b.minX + b.maxX) / 2

def Box3.centerY (b : Box3) : ℚ := (b.minY + b.maxY) / 2

def Box3.centerZ (b : Box3) : ℚ := (b.minZ + b.maxZ) / 2

def Box3.translate (b : Box3) (dx dy dz : ℚ) : Box3 :=
  ⟨b.minX + dx, b.minY + dy, b.minZ + dz, b.maxX + dx, b.maxY + dy, b.maxZ + dz⟩

/-- Effect of `rotate([-90, 0, 0])` (−90° about the X axis, as used for the
base, the supports and the bridge cylinders) on an axis-aligned box:
the point map is (x, y, z) ↦ (x, z, −y), which sends the y-interval
[minY, maxY] to the z-interval [−maxY, −minY] and the z-interval to the
y-interval unchanged. -/
def Box3.rotXneg90 (b : Box3) : Box3 :=
  ⟨b.minX, b.minZ, -b.maxY, b.maxX, b.maxZ, -b.minY⟩

/-- Axis-aligned 2D bounding box of a cross-section (THREE.Shape). -/
structure Box2 where
  minX : ℚ
  minY : ℚ
  maxX : ℚ
  maxY : ℚ
deriving DecidableEq, Repr

/-- `Manifold.extrude(cs, depth)`: the extrusion spans `[0, depth]` along Z. -/
def extrudeBox (cs : Box2) (depth : ℚ) : Box3 :=
  ⟨cs.minX, cs.minY, 0, cs.maxX, cs.maxY, depth⟩

/-! ## Outline cleaning (`cleanPoints`, generator.ts lines 8–26) -/

/-- Squared distance `dx*dx + dy*dy` between the current and the last kept
point, exactly as computed in the `cleanPoints` loop. -/
def d2 (curr last : ℚ × ℚ) : ℚ :=
  (curr.1 - last.1) * (curr.1 - last.1) + (curr.2 - last.2) * (curr.2 - last.2)

/-- The squared-distance threshold `0.000001` of `cleanPoints`. -/
def eps2 : ℚ := 1 / 1000000

/-- The filtering loop of `cleanPoints`: keep `curr` only when its squared
distance from the previously kept point (`last`) exceeds `eps2`. -/
def cleanAux (last : ℚ × ℚ) : List (ℚ × ℚ) → List (ℚ × ℚ)
  | [] => []
  | c :: t => if eps2 < d2 c last then c :: cleanAux c t else cleanAux last t

/-- `cleanPoints` (generator.ts lines 8–26): loops shorter than 3 points are
dropped, the filter runs seeded with the final point, and a result reduced
below 3 points is dropped as well. -/
def cleanPoints (points : List (ℚ × ℚ)) : List (ℚ × ℚ) :=
  if points.length < 3 then []
  else
    match points.getLast? with
    | none => []
    | some l =>
        if 3 ≤ (cleanAux l points).length then cleanAux l points else []

/-- The closing-point drop of `shapesToManifold` (lines 54–59 / 68–73): a
trailing point duplicating the first within `0.0001` per coordinate is
popped before `cleanPoints` runs. -/
def dropClosingDup (points : List (ℚ × ℚ)) : List (ℚ × ℚ) :=
  match points with
  | [] => []
  | p :: _ =>
      match points.getLast? with
      | none => points
      | some l =>
          if |p.1 - l.1| < 1 / 10000 ∧ |p.2 - l.2| < 1 / 10000 then
            points.dropLast
          else points

/-! ## Winding (`isCCW`, `processPoints`, generator.ts lines 29–45) -/

/-- One term `(x2 − x1) * (y2 + y1)` of the signed-area sum. -/
def edgeTerm (p q : ℚ × ℚ) : ℚ := (q.1 - p.1) * (q.2 + p.2)

/-- Sum of `edgeTerm` over consecutive pairs of an (open) point list. -/
def openSum : List (ℚ × ℚ) → ℚ
  | [] => 0
  | [_] => 0
  | p :: q :: t => edgeTerm p q + openSum (q :: t)

/-- The cyclic signed-area sum `Σ (x2−x1)(y2+y1)` computed by `isCCW`
(indices taken mod n, so the list is closed back to its first point). -/
def signedSum (ps : List (ℚ × ℚ)) : ℚ :=
  match ps with
  | [] => 0
  | p :: _ => openSum (ps ++ [p])

/-- `isCCW` (lines 29–37): the loop counts as counter-clockwise when the
signed-area sum is negative. -/
def isCCW (ps : List (ℚ × ℚ)) : Bool := signedSum ps < 0

/-- `processPoints` (lines 39–45): reverse the point list when its winding
disagrees with the requested one. -/
def processPoints (ps : List (ℚ × ℚ)) (desiredCCW : Bool) : List (ℚ × ℚ) :=
  if isCCW ps = desiredCCW then ps else ps.reverse

/-! ## Support primitives (`createSupportPrimitive`, lines 110–129, and the
support placement in the main loop, lines 362–377) -/

inductive SupportType where
  | CYLINDER
  | SQUARE
deriving DecidableEq, Repr

/-- A support primitive: its bounding box plus, for cylinders, the number of
circular segments requested from the kernel. -/
structure Primitive where
  box : Box3
  circularSegments : Option ℕ
deriving DecidableEq, Repr

/-- `createSupportPrimitive` (lines 110–129).
`Manifold.cylinder(height, size, size, 16, true)` builds a 16-segment
cylinder of radius `size` centered at the origin, spanning
`[-height/2, height/2]` along Z (its 16-gon cross-section touches ±size on
both X and Y since 16 is divisible by 4);
`Manifold.cube([size*2, size*2, height], true)` builds a centered box. -/
def createSupportPrimitive (type : SupportType) (height size : ℚ) : Primitive :=
  match type with
  | SupportType.CYLINDER =>
      ⟨⟨-size, -size, -(height / 2), size, size, height / 2⟩, some 16⟩
  | SupportType.SQUARE =>
      ⟨⟨-size, -size, -(height / 2), size, size, height / 2⟩, none⟩

/-- Support placement (lines 362–377): rotate the primitive's extrusion axis
to vertical, anchor it at `baseBottomY = embedDepth - baseHeight` when a base
exists (`baseHeight > 0`) and at `0` otherwise, and translate it to
`[centerX + dX, baseBottomY + height/2, dZ]`. -/
def supportPlaced (type : SupportType) (height size baseHeight embedDepth
    centerX dX dZ : ℚ) : Box3 :=
  let rotated := (createSupportPrimitive type height size).box.rotXneg90
  let baseBottomY := if 0 < baseHeight then embedDepth - baseHeight else 0
  rotated.translate (centerX + dX) (baseBottomY + height / 2) dZ

/-! ## Auto-bridge (`applyAutoBridge`, lines 131–206) -/

/-- The comparator `bA.min[1] - bB.min[1]` sorts components ascending by the
minimum Y of their bounding boxes. -/
def byMinY (a b : Box3) : Prop := a.minY ≤ b.minY

instance : DecidableRel byMinY :=
  fun a b => inferInstanceAs (Decidable (a.minY ≤ b.minY))

instance : IsTotal Box3 byMinY := ⟨fun a b => le_total a.minY b.minY⟩

instance : IsTrans Box3 byMinY := ⟨fun _ _ _ h1 h2 => le_trans h1 h2⟩

/-- JS `Array.prototype.sort` with the minY comparator: a stable sort by
minimum Y, modelled by insertion sort. -/
def sortByMinY (comps : List Box3) : List Box3 := List.insertionSort byMinY comps

/-- A synthesized vertical cylindrical connector. -/
structure BridgeCyl where
  height : ℚ
  radius : ℚ
  centerX : ℚ
  centerY : ℚ
  centerZ : ℚ
deriving DecidableEq, Repr

/-- The connector synthesized for one adjacent component pair (lines
170–191): with `yMin = lower.maxY` and `yMax = upper.minY`, height is
`(yMax - yMin) + 0.4`, the cylinder radius is `bridgeWidth/2 = 1.8/2 = 0.9`,
and the center is the XZ midpoint of the two boxes' centers at the Y
midpoint of the gap. -/
def bridgeFor (lower upper : Box3) : BridgeCyl :=
  { height := (upper.minY - lower.maxY) + 2 / 5
    radius := 9 / 10
    centerX := (lower.centerX + upper.centerX) / 2
    centerY := (upper.minY + lower.maxY) / 2
    centerZ := (lower.centerZ + upper.centerZ) / 2 }

/-- The per-adjacent-pair condition of line 169, `yMax > yMin - 0.2`, with
the connector it produces. -/
def bridgeCond (lu : Box3 × Box3) : Option BridgeCyl :=
  if lu.1.maxY - 1 / 5 < lu.2.minY then some (bridgeFor lu.1 lu.2) else none

/-- The `for` loop of lines 157–194 over adjacent pairs of the sorted
component list. -/
def bridgeLoop : List Box3 → List BridgeCyl
  | [] => []
  | [_] => []
  | l :: u :: rest =>
      (if l.maxY - 1 / 5 < u.minY then [bridgeFor l u] else []) ++
        bridgeLoop (u :: rest)

/-- `applyAutoBridge` (lines 131–206), abstracted to component bounding
boxes: a solid with at most one component is returned unchanged (no
bridges); otherwise the components are sorted by minimum Y and every
adjacent pair passing the gap test of line 169 gets a connector.  The
result returns the sorted components together with the synthesized
connectors (the code unions them all back into one solid). -/
def applyAutoBridge (comps : List Box3) : List Box3 × List BridgeCyl :=
  if comps.length ≤ 1 then (comps, [])
  else (sortByMinY comps, bridgeLoop (sortByMinY comps))

/-! ## Base synthesis (lines 398–441) -/

/-- Bounding box of the 2D base footprint: both the rounded rectangle (its
corner arcs stay inside the rectangle and its straight edges touch all four
sides) and the ellipse (sampled at 16 divisions, a multiple of 4, so the
four axis extremes are sampled) span exactly
`[-width/2, width/2] × [-depth/2, depth/2]`. -/
def footprintBox (width depth : ℚ) : Box2 :=
  ⟨-(width / 2), -(depth / 2), width / 2, depth / 2⟩

/-- The base solid of lines 398–437, abstracted to bounding boxes: the
footprint is sized to the letters' XZ extent plus `basePadding`, extruded to
`baseHeight`, rotated so the extrusion axis is vertical, and translated by
`[center.x, embedDepth - baseHeight, center.z]` where `center` is the
letters' XZ bounding-box center. -/
def baseSolid (letters : Box3) (basePadding baseHeight embedDepth : ℚ) : Box3 :=
  let width := (letters.maxX - letters.minX) + basePadding
  let depth := (letters.maxZ - letters.minZ) + basePadding
  ((extrudeBox (footprintBox width depth) baseHeight).rotXneg90).translate
    letters.centerX (embedDepth - baseHeight) letters.centerZ

/-! ## Per-position intersection and layout (lines 238–391) -/

/-- The per-pair result transform (`config.transform`).  Fields are
`Option` so that a missing (`undefined`) value is distinguishable from a
configured one. -/
structure Transform2D where
  scaleX : Option ℚ
  scaleY : Option ℚ
  moveX : Option ℚ
  moveZ : Option ℚ
deriving DecidableEq, Repr

/-- JS `v || d` for a numeric option: both a missing value and a configured
`0` are falsy and coerced to the default. -/
def jsOrNum (v : Option ℚ) (d : ℚ) : ℚ :=
  match v with
  | none => d
  | some x => if x = 0 then d else x

/-- The applied transform values `(sX, sY, dX, dZ)` of lines 332–335:
`scaleX || 1`, `scaleY || 1`, `moveX || 0`, `moveZ || 0`. -/
def appliedTransform (t : Transform2D) : ℚ × ℚ × ℚ × ℚ :=
  (jsOrNum t.scaleX 1, jsOrNum t.scaleY 1, jsOrNum t.moveX 0, jsOrNum t.moveZ 0)

/-- Per-pair bridge configuration flags (manual-bridge geometry is handled
separately and does not affect the pair's own placement). -/
structure BridgeConfig where
  enabled : Bool
  auto : Bool
deriving DecidableEq, Repr

/-- The slice of one position's `intersectionConfig` entry that drives the
main loop: whether each character trims to the empty string, the result
transform, and the bridge flags. -/
structure PairStepConfig where
  c1Space : Bool
  c2Space : Bool
  transform : Transform2D
  bridgeCfg : BridgeConfig
deriving DecidableEq, Repr

/-- Kernel outcomes for one position, as the generator observes them:
`m1`/`m2` are the bounding boxes of the prepared (extruded, centered,
±45°-rotated) character solids (`none` when the glyph produced no shapes or
a kernel call threw), `inter` is the bounding box of `m1.intersect(m2)`
(`none` when the call threw), and `bridged` is the bounding box of the
solid after `applyAutoBridge` re-unions it (consulted only when
auto-bridging is enabled). -/
structure PairKernel where
  m1 : Option Box3
  m2 : Option Box3
  inter : Option Box3
  bridged : Box3
deriving DecidableEq, Repr

/-- Lines 293–314: with both characters present the intersection result is
kept unless its bounding-box width or height is below `0.001` (lines
297–301); with exactly one side present that side's solid is the result;
with neither, there is no result. -/
def pairResult (cfg : PairStepConfig) (k : PairKernel) : Option Box3 :=
  let m1 := if cfg.c1Space then none else k.m1
  let m2 := if cfg.c2Space then none else k.m2
  match m1, m2 with
  | some _, some _ =>
      match k.inter with
      | some b =>
          if b.width < 1 / 1000 ∨ b.height < 1 / 1000 then none else some b
      | none => none
  | some b, none => some b
  | none, some b => some b
  | none, none => none

/-- The pair solid entering layout: a double-space position is skipped
outright (lines 245–248), and an auto-bridged position's solid is replaced
by the bridged union (lines 321–323). -/
def pairResultAfterBridge (cfg : PairStepConfig) (k : PairKernel) : Option Box3 :=
  if cfg.c1Space && cfg.c2Space then none
  else
    match pairResult cfg k with
    | none => none
    | some rb =>
        some (if cfg.bridgeCfg.enabled && cfg.bridgeCfg.auto then k.bridged else rb)

/-- A placed pair: the X translation target `cursor + width/2 + moveX`
applied at line 338, the post-bridge bounding-box width used by layout, and
the applied `moveX`. -/
structure PlacedPair where
  center : ℚ
  width : ℚ
  moveX : ℚ
deriving DecidableEq, Repr

/-- One iteration of the main loop (lines 238–391) at cursor `c`: a position
with no usable solid, or whose width is not above `0.001` (line 328),
emits nothing and advances the cursor by `gap + fontSize*0.5` (lines 246,
386, 389); an emitting position is placed at `c + width/2 + moveX` and
advances the cursor by `width + gap` (line 383), with `gap =
fontSize * spacing` (line 230). -/
def stepPos (fontSize spacing : ℚ) (cfg : PairStepConfig) (k : PairKernel)
    (c : ℚ) : Option PlacedPair × ℚ :=
  match pairResultAfterBridge cfg k with
  | none => (none, c + fontSize * spacing + fontSize * (1 / 2))
  | some rb =>
      if 1 / 1000 < rb.width then
        (some
            { center := c + rb.width / 2 + (appliedTransform cfg.transform).2.2.1
              width := rb.width
              moveX := (appliedTransform cfg.transform).2.2.1 },
          c + rb.width + fontSize * spacing)
      else (none, c + fontSize * spacing + fontSize * (1 / 2))

/-- The main loop threaded over all positions, returning one entry per
position (`none` for a position that emitted no geometry). -/
def layoutRun (fontSize spacing : ℚ) :
    ℚ → List (PairStepConfig × PairKernel) → List (Option PlacedPair)
  | _, [] => []
  | c, p :: rest =>
      (stepPos fontSize spacing p.1 p.2 c).1 ::
        layoutRun fontSize spacing (stepPos fontSize spacing p.1 p.2 c).2 rest

/-- The layout pass of `generateDualTextGeometry`: the cursor starts at 0
(line 235). -/
def generateLayout (fontSize spacing : ℚ)
    (ps : List (PairStepConfig × PairKernel)) : List (Option PlacedPair) :=
  layoutRun fontSize spacing 0 ps

/-! ## Assembly, base failure policy and floating-island filter
(lines 393–509) -/

/-- Smallest box containing both arguments (bounding box of a union). -/
def Box3.hull (a b : Box3) : Box3 :=
  ⟨min a.minX b.minX, min a.minY b.minY, min a.minZ b.minZ,
    max a.maxX b.maxX, max a.maxY b.maxY, max a.maxZ b.maxZ⟩

/-- Bounding box of a list of component boxes, with a default for the empty
list. -/
def hullOr (dflt : Box3) : List Box3 → Box3
  | [] => dflt
  | x :: t => t.foldl Box3.hull x

/-- The final centering of lines 498–503: translate so the bounding-box
center lands at the origin. -/
def centerAtOrigin (b : Box3) : Box3 :=
  b.translate (-b.centerX) (-b.centerY) (-b.centerZ)

/-- Lines 398–441: when `baseHeight > 0` the base is synthesized inside a
`try`/`catch`; a successful synthesis appends the base solid to `parts`,
while a thrown kernel error (caught and logged at lines 438–440) or a
`null` footprint extrusion leaves `parts` unchanged — generation
continues. -/
def partsWithBase (baseHeight : ℚ) (baseAttempt : Except String (Option Box3))
    (parts : List Box3) : List Box3 :=
  if 0 < baseHeight then
    match baseAttempt with
    | Except.ok (some b) => parts ++ [b]
    | _ => parts
  else parts

/-- The floating-island filter of lines 456–493, on the decomposed
components of the final union: when a base exists and there is more than
one component, keep the components whose minimum Y is at most
`global.minY + 0.2`; if that discards some (but not all) components the
kept ones replace the solid, and if it would discard all of them the
original solid is kept. -/
def removeFloatingIslands (baseHeight : ℚ) (global : Box3)
    (comps : List Box3) : List Box3 :=
  if 0 < baseHeight ∧ 1 < comps.length then
    let kept := comps.filter (fun c => decide (c.minY ≤ global.minY + 1 / 5))
    if kept.length < comps.length then
      if 0 < kept.length then kept else comps
    else comps
  else comps

/-- Kernel oracles used by the assembly stage: the final union over the
parts list (which may fail) and decomposition into connected components. -/
structure AssemblyKernel where
  unionAll : List Box3 → Except String Box3
  decompose : Box3 → List Box3

/-- The assembly stage (lines 393–509): append the base when its synthesis
succeeded, then union everything; a union failure is rethrown as
`Final geometry merge failed: …` (line 507), while a success runs the
floating-island filter and final centering. -/
def finalStage (K : AssemblyKernel) (baseHeight : ℚ)
    (baseAttempt : Except String (Option Box3)) (parts : List Box3) :
    Except String Box3 :=
  match K.unionAll (partsWithBase baseHeight baseAttempt parts) with
  | Except.error e => Except.error (("Final geometry merge failed: ") ++ e)
  | Except.ok s =>
      Except.ok (centerAtOrigin
        (hullOr s (removeFloatingIslands baseHeight s (K.decompose s))))

/-! ## Concrete sample inputs used to instantiate the theorems -/

/-- The unit box `[0,1]³`. -/
def boxUnit : Box3 := ⟨0, 0, 0, 1, 1, 1⟩

/-- A unit box floating one unit above `boxUnit` (vertical gap 1 ≥ 0.2). -/
def boxGap1 : Box3 := ⟨0, 2, 0, 1, 3, 1⟩

/-- A unit box floating far above the bed (minimum Y = 5). -/
def boxHigh5 : Box3 := ⟨0, 5, 0, 1, 6, 1⟩

/-- A degenerate intersection box: width `1/2000 < 0.001`. -/
def boxDeg : Box3 := ⟨0, 0, 0, 1 / 2000, 5, 5⟩

/-- Letters bounding box `[0,2]³` for the base-synthesis example. -/
def boxLetters : Box3 := ⟨0, 0, 0, 2, 2, 2⟩

/-- A transform with no configured values. -/
def transNone : Transform2D := ⟨none, none, none, none⟩

/-- A transform with `moveX = 100` configured. -/
def transMove100 : Transform2D := ⟨none, none, some 100, none⟩

/-- Bridges disabled. -/
def bridgeOff : BridgeConfig := ⟨false, false⟩

/-- Single-sided position (second character is a space), default transform. -/
def cfgSingle : PairStepConfig := ⟨false, true, transNone, bridgeOff⟩

/-- Single-sided position with `moveX = 100`. -/
def cfgSingleMove : PairStepConfig := ⟨false, true, transMove100, bridgeOff⟩

/-- Both characters present, default transform. -/
def cfgBoth : PairStepConfig := ⟨false, false, transNone, bridgeOff⟩

/-- Kernel outcome for a single-sided position: the first character's solid
is the unit box. -/
def kSingle : PairKernel := ⟨some boxUnit, none, none, boxUnit⟩

/-- Kernel outcome for a two-sided position whose intersection is
degenerate (`boxDeg`). -/
def kDeg : PairKernel := ⟨some boxUnit, some boxUnit, some boxDeg, boxUnit⟩

/-- A sample assembly kernel whose final union succeeds with `boxUnit` and
which decomposes every solid into a single (whole) component. -/
def K0 : AssemblyKernel := ⟨fun _ => Except.ok boxUnit, fun s => [s]⟩

/-- A counter-clockwise triangle (signed-area sum −1). -/
def triCCW : List (ℚ × ℚ) := [(0, 0), (1, 0), (0, 1)]

/-! # Theorems -/

/-! ## Winding (C8) -/

theorem edgeTerm_swap (p q : ℚ × ℚ) : edgeTerm q p = -edgeTerm p q := by
  unfold edgeTerm; ring

theorem openSum_append_pair :
    ∀ (xs : List (ℚ × ℚ)) (a b : ℚ × ℚ),
      openSum (xs ++ [a, b]) = openSum (xs ++ [a]) + edgeTerm a b
  | [], a, b => by simp [openSum]
  | [x], a, b => by simp [openSum]
  | x :: y :: t, a, b => by
      have ih := openSum_append_pair (y :: t) a b
      show edgeTerm x y + openSum ((y :: t) ++ [a, b]) =
        (edgeTerm x y + openSum ((y :: t) ++ [a])) + edgeTerm a b
      rw [ih]; ring

theorem openSum_reverse :
    ∀ (x : ℚ × ℚ) (xs : List (ℚ × ℚ)),
      openSum ((x :: xs).reverse) = -openSum (x :: xs)
  | _, [] => by simp [openSum]
  | x, y :: t => by
      have ih := openSum_reverse y t
      have h1 := openSum_append_pair t.reverse y x
      calc openSum ((x :: y :: t).reverse)
          = openSum (t.reverse ++ [y, x]) := by
            simp [List.reverse_cons, List.append_assoc]
        _ = openSum (t.reverse ++ [y]) + edgeTerm y x := h1
        _ = openSum ((y :: t).reverse) + edgeTerm y x := by
            simp [List.reverse_cons]
        _ = -openSum (y :: t) + edgeTerm y x := by rw [ih]
        _ = -openSum (x :: y :: t) := by
            simp only [openSum, edgeTerm_swap x y]; ring

theorem signedSum_rotate (a : ℚ × ℚ) (xs : List (ℚ × ℚ)) :
    signedSum (xs ++ [a]) = signedSum (a :: xs) := by
  cases xs with
  | nil => rfl
  | cons x u =>
      have h1 := openSum_append_pair (x :: u) a x
      have lhs : signedSum ((x :: u) ++ [a]) = openSum ((x :: u) ++ [a, x]) := by
        show openSum (((x :: u) ++ [a]) ++ [x]) = openSum ((x :: u) ++ [a, x])
        rw [List.append_assoc]
        rfl
      have rhs : signedSum (a :: x :: u) =
          edgeTerm a x + openSum ((x :: u) ++ [a]) := rfl
      rw [lhs, h1, rhs]; ring

theorem signedSum_reverse : ∀ ps : List (ℚ × ℚ), signedSum ps.reverse = -signedSum ps
  | [] => by simp [signedSum]
  | [p] => by
      show signedSum [p] = -signedSum [p]
      simp [signedSum, openSum, edgeTerm]
  | p :: y :: u => by
      have h2 : (p :: y :: u).reverse = (y :: u).reverse ++ [p] := by
        simp [List.reverse_cons]
      rw [h2, signedSum_rotate p ((y :: u).reverse)]
      have h3 : signedSum (p :: (y :: u).reverse) =
          openSum ((p :: (y :: (u ++ [p]))).reverse) := by
        show openSum ((p :: (y :: u).reverse) ++ [p]) = _
        simp [List.reverse_cons, List.reverse_append, List.append_assoc]
      rw [h3, openSum_reverse]
      rfl

/-- Claim C8: for every loop with nonzero signed-area sum
`Σ (x2−x1)(y2+y1)`, reversing the point list flips the sign of the sum, and
`processPoints` returns a loop whose orientation matches the request: with
`desiredCCW = true` (outer loops) the returned loop's sum is negative (the
code's CCW test), and with `desiredCCW = false` (holes) it is not. -/
theorem winding_forced (ps : List (ℚ × ℚ)) (desiredCCW : Bool) :
    signedSum ps.reverse = -signedSum ps ∧
      (signedSum ps ≠ 0 → isCCW (processPoints ps desiredCCW) = desiredCCW) := by
  refine ⟨signedSum_reverse ps, fun hne => ?_⟩
  unfold processPoints
  by_cases h : isCCW ps = desiredCCW
  · rw [if_pos h]; exact h
  · rw [if_neg h]
    have hrev := signedSum_reverse ps
    unfold isCCW at h ⊢
    rw [hrev]
    cases hb : decide (signedSum ps < 0) with
    | false =>
        have hS : 0 < signedSum ps :=
          lt_of_le_of_ne (not_lt.mp (of_decide_eq_false hb)) (Ne.symm hne)
        rw [hb] at h
        cases desiredCCW with
        | false => exact absurd rfl h
        | true => exact decide_eq_true (by linarith)
    | true =>
        have hS : signedSum ps < 0 := of_decide_eq_true hb
        rw [hb] at h
        cases desiredCCW with
        | false => exact decide_eq_false (by linarith)
        | true => exact absurd rfl h

/-- Witness for C8 at the concrete triangle `triCCW` (sum −1 ≠ 0),
requesting hole orientation. -/
theorem winding_forced_witness : isCCW (processPoints triCCW false) = false :=
  (winding_forced triCCW false).2 (by norm_num [triCCW, signedSum, openSum, edgeTerm])

/-! ## Outline cleaning (C9) -/

theorem cleanAux_chain :
    ∀ (t : List (ℚ × ℚ)) (last : ℚ × ℚ),
      List.Chain' (fun a b => eps2 < d2 b a) (cleanAux last t) ∧
        (∀ x ∈ (cleanAux last t).head?, eps2 < d2 x last)
  | [], _ => by simp [cleanAux]
  | c :: t, last => by
      by_cases hc : eps2 < d2 c last
      · have ih := cleanAux_chain t c
        simp only [cleanAux, if_pos hc]
        refine ⟨List.chain'_cons'.mpr ⟨ih.2, ih.1⟩, ?_⟩
        intro x hx
        simp only [List.head?_cons, Option.mem_def, Option.some.injEq] at hx
        rw [← hx]
        exact hc
      · have ih := cleanAux_chain t last
        simp only [cleanAux, if_neg hc]
        exact ih

theorem cleanPoints_spec (points : List (ℚ × ℚ)) :
    cleanPoints points = [] ∨
      (3 ≤ (cleanPoints points).length ∧
        List.Chain' (fun a b => eps2 < d2 b a) (cleanPoints points)) := by
  unfold cleanPoints
  split
  · exact Or.inl rfl
  · split
    · exact Or.inl rfl
    · rename_i l _
      split
      · rename_i h3
        exact Or.inr ⟨h3, (cleanAux_chain points l).1⟩
      · exact Or.inl rfl

/-- Claim C9: for every raw outline, after the trailing closing-point
duplicate (within `1e-4` per coordinate) is dropped, `cleanPoints` returns
either the empty list (the loop is discarded) or a list of at least 3
points in which every pair of consecutive points is separated by squared
distance strictly greater than `0.000001`. -/
theorem cleanPoints_output (points : List (ℚ × ℚ)) :
    cleanPoints (dropClosingDup points) = [] ∨
      (3 ≤ (cleanPoints (dropClosingDup points)).length ∧
        List.Chain' (fun a b => eps2 < d2 b a) (cleanPoints (dropClosingDup points))) :=
  cleanPoints_spec (dropClosingDup points)

/-! ## Base synthesis (C5) -/

/-- Claim C5: whenever `baseHeight > 0` and base synthesis succeeds, the
base solid spans exactly `[embedDepth − baseHeight, embedDepth]` along Y —
its top face sits at `Y = embedDepth` after extruding the footprint to
`baseHeight`, rotating the extrusion axis to vertical and translating by
`embedDepth − baseHeight` — and it is centered on the letters' XZ
bounding-box center. -/
theorem base_spans_embed (letters : Box3) (basePadding baseHeight embedDepth : ℚ)
    (_hb : 0 < baseHeight) :
    (baseSolid letters basePadding baseHeight embedDepth).minY =
        embedDepth - baseHeight ∧
      (baseSolid letters basePadding baseHeight embedDepth).maxY = embedDepth ∧
      (baseSolid letters basePadding baseHeight embedDepth).centerX =
        letters.centerX ∧
      (baseSolid letters basePadding baseHeight embedDepth).centerZ =
        letters.centerZ := by
  refine ⟨?_, ?_, ?_, ?_⟩ <;>
    simp only [baseSolid, footprintBox, extrudeBox, Box3.rotXneg90,
      Box3.translate, Box3.centerX, Box3.centerZ] <;>
    ring

/-- Witness for C5 at a concrete configuration (letters `[0,2]³`, padding 1,
`baseHeight = 2`, `embedDepth = 1/2`). -/
theorem base_spans_embed_witness :
    (baseSolid boxLetters 1 2 (1 / 2)).minY = 1 / 2 - 2 ∧
      (baseSolid boxLetters 1 2 (1 / 2)).maxY = 1 / 2 ∧
      (baseSolid boxLetters 1 2 (1 / 2)).centerX = boxLetters.centerX ∧
      (baseSolid boxLetters 1 2 (1 / 2)).centerZ = boxLetters.centerZ :=
  base_spans_embed boxLetters 1 2 (1 / 2) (by norm_num)

/-! ## Support synthesis (C7) -/

/-- Claim C7: for every enabled support whose primitive is created, the
primitive (16-segment cylinder or square prism) is centered at the origin
and spans `[−height/2, height/2]` along its extrusion axis; after rotation
to vertical and translation the support spans exactly
`[baseBottomY, baseBottomY + height]` along Y, where
`baseBottomY = embedDepth − baseHeight` if `baseHeight > 0` and `0`
otherwise, and sits at `X = centerX + moveX`, `Z = moveZ`. -/
theorem support_span (type : SupportType) (height size baseHeight embedDepth
    centerX dX dZ : ℚ) :
    (createSupportPrimitive type height size).box.minZ = -(height / 2) ∧
      (createSupportPrimitive type height size).box.maxZ = height / 2 ∧
      (createSupportPrimitive type height size).box.centerX = 0 ∧
      (createSupportPrimitive type height size).box.centerY = 0 ∧
      (createSupportPrimitive type height size).circularSegments =
        (match type with
          | SupportType.CYLINDER => some 16
          | SupportType.SQUARE => none) ∧
      (supportPlaced type height size baseHeight embedDepth centerX dX dZ).minY =
        (if 0 < baseHeight then embedDepth - baseHeight else 0) ∧
      (supportPlaced type height size baseHeight embedDepth centerX dX dZ).maxY =
        (if 0 < baseHeight then embedDepth - baseHeight else 0) + height ∧
      (supportPlaced type height size baseHeight embedDepth centerX dX dZ).centerX =
        centerX + dX ∧
      (supportPlaced type height size baseHeight embedDepth centerX dX dZ).centerZ =
        dZ := by
  cases type <;>
    refine ⟨rfl, rfl, ?_, ?_, rfl, ?_, ?_, ?_, ?_⟩ <;>
    simp only [supportPlaced, createSupportPrimitive, Box3.rotXneg90,
      Box3.translate, Box3.centerX, Box3.centerY, Box3.centerZ] <;>
    ring

/-! ## Auto-bridge (C1) -/

theorem bridgeLoop_eq :
    ∀ l : List Box3, bridgeLoop l = (l.zip l.tail).filterMap bridgeCond
  | [] => rfl
  | [_] => rfl
  | l :: u :: rest => by
      have ih := bridgeLoop_eq (u :: rest)
      show (if l.maxY - 1 / 5 < u.minY then [bridgeFor l u] else []) ++
          bridgeLoop (u :: rest) =
        List.filterMap bridgeCond ((l, u) :: (u :: rest).zip rest)
      rw [List.filterMap_cons, ih]
      by_cases hcond : l.maxY - 1 / 5 < u.minY
      · rw [if_pos hcond,
          show bridgeCond (l, u) = some (bridgeFor l u) from by
            unfold bridgeCond; exact if_pos hcond]
        rfl
      · rw [if_neg hcond,
          show bridgeCond (l, u) = none from by
            unfold bridgeCond; exact if_neg hcond]
        rfl

/-- Claim C1 (amended): for a pair solid with auto-bridging whose
decomposition has at least two components, the components are sorted by
minimum Y, and a vertical cylindrical connector is synthesized for an
adjacent pair exactly when the upper component's minimum Y exceeds the
lower component's maximum Y minus 0.2 (any positive gap, touching, or
overlap smaller than 0.2 units); each connector has height equal to the
gap `upper.minY − lower.maxY` plus the 0.4-unit overlap margin, radius
0.9, and is centered at the XZ midpoint between the two components'
bounding-box centers and at the Y midpoint of the gap. -/
theorem autoBridge_spec (comps : List Box3) :
    List.Sorted byMinY (applyAutoBridge comps).1 ∧
      (applyAutoBridge comps).2 =
        (((applyAutoBridge comps).1).zip ((applyAutoBridge comps).1).tail).filterMap
          bridgeCond ∧
      ∀ lower upper : Box3,
        bridgeCond (lower, upper) =
          if lower.maxY - 1 / 5 < upper.minY then
            some
              { height := (upper.minY - lower.maxY) + 2 / 5
                radius := 9 / 10
                centerX := (lower.centerX + upper.centerX) / 2
                centerY := (upper.minY + lower.maxY) / 2
                centerZ := (lower.centerZ + upper.centerZ) / 2 }
          else none := by
  refine ⟨?_, ?_, fun lower upper => rfl⟩
  · unfold applyAutoBridge
    by_cases hlen : comps.length ≤ 1
    · rw [if_pos hlen]
      rcases comps with _ | ⟨x, _ | ⟨y, t⟩⟩
      · exact List.sorted_nil
      · exact List.sorted_singleton x
      · simp [List.length_cons] at hlen
    · rw [if_neg hlen]
      exact List.sorted_insertionSort byMinY comps
  · unfold applyAutoBridge
    by_cases hlen : comps.length ≤ 1
    · rw [if_pos hlen]
      rcases comps with _ | ⟨x, _ | ⟨y, t⟩⟩
      · rfl
      · rfl
      · simp [List.length_cons] at hlen
    · rw [if_neg hlen]
      exact bridgeLoop_eq (sortByMinY comps)

/-- Counterexample to C1 as stated: two components with a vertical gap of
1 unit (not less than the 0.2 closing tolerance) still receive a
connector, because the code's test `yMax > yMin − 0.2` accepts any
positive gap. -/
theorem autoBridge_claim_cex :
    (applyAutoBridge [boxUnit, boxGap1]).2 ≠ [] ∧
      ¬(boxGap1.minY - boxUnit.maxY < 1 / 5) := by
  constructor
  · norm_num [applyAutoBridge, sortByMinY, List.insertionSort, List.orderedInsert,
      byMinY, boxUnit, boxGap1, bridgeLoop, bridgeFor, Box3.centerX, Box3.centerZ]
  · norm_num [boxUnit, boxGap1]

/-! ## Floating-island filter (C6) -/

/-- Claim C6: when a base exists (`baseHeight > 0`) and the final solid has
more than one component, every component retained by the connectivity
filter has its own minimum Y ≤ the global minimum Y + 0.2 — components
above the threshold are discarded — and if filtering would discard every
component, the original component set is kept instead of returning an
empty result. -/
theorem floating_filter_spec (baseHeight : ℚ) (global : Box3) (comps : List Box3)
    (hb : 0 < baseHeight) (hc : 1 < comps.length) :
    ((comps.filter fun c => decide (c.minY ≤ global.minY + 1 / 5)) ≠ [] →
        removeFloatingIslands baseHeight global comps =
          (comps.filter fun c => decide (c.minY ≤ global.minY + 1 / 5)) ∧
        ∀ c ∈ removeFloatingIslands baseHeight global comps,
          c.minY ≤ global.minY + 1 / 5) ∧
      ((comps.filter fun c => decide (c.minY ≤ global.minY + 1 / 5)) = [] →
        removeFloatingIslands baseHeight global comps = comps) := by
  unfold removeFloatingIslands
  rw [if_pos ⟨hb, hc⟩]
  by_cases hlen :
      (comps.filter fun c => decide (c.minY ≤ global.minY + 1 / 5)).length <
        comps.length
  · rw [if_pos hlen]
    by_cases hpos :
        0 < (comps.filter fun c => decide (c.minY ≤ global.minY + 1 / 5)).length
    · rw [if_pos hpos]
      refine ⟨fun _ => ⟨rfl, ?_⟩, fun hnil => ?_⟩
      · intro c hcm
        exact of_decide_eq_true (List.mem_filter.mp hcm).2
      · rw [hnil] at hpos
        simp at hpos
    · rw [if_neg hpos]
      refine ⟨fun hne => absurd (List.length_pos.mpr hne) hpos, fun _ => rfl⟩
  · rw [if_neg hlen]
    have heq : (comps.filter fun c => decide (c.minY ≤ global.minY + 1 / 5)) = comps :=
      (List.filter_sublist comps).eq_of_length
        (le_antisymm (List.filter_sublist comps).length_le (not_lt.mp hlen))
    refine ⟨fun _ => ⟨heq.symm, ?_⟩, fun _ => rfl⟩
    intro c hcm
    rw [← heq] at hcm
    exact of_decide_eq_true (List.mem_filter.mp hcm).2

/-- Witness for C6: a bed component and an island at height 5; the filter
keeps exactly the bed component. -/
theorem floating_filter_spec_witness :
    removeFloatingIslands 1 boxUnit [boxUnit, boxHigh5] = [boxUnit] := by
  have h :=
    (floating_filter_spec 1 boxUnit [boxUnit, boxHigh5] (by norm_num)
        (by norm_num)).1
      (by norm_num [boxUnit, boxHigh5])
  exact h.1.trans (by norm_num [boxUnit, boxHigh5])

/-! ## Layout (C3, C4) and transform coercion (C10) -/

theorem stepPos_cases (fontSize spacing : ℚ) (cfg : PairStepConfig)
    (k : PairKernel) (c : ℚ) :
    stepPos fontSize spacing cfg k c =
        (none, c + fontSize * spacing + fontSize * (1 / 2)) ∨
      ∃ w dX, 1 / 1000 < w ∧
        stepPos fontSize spacing cfg k c =
          (some ⟨c + w / 2 + dX, w, dX⟩, c + w + fontSize * spacing) := by
  rcases hpr : pairResultAfterBridge cfg k with _ | rb
  · refine Or.inl ?_
    unfold stepPos
    rw [hpr]
  · by_cases hw : 1 / 1000 < rb.width
    · refine Or.inr ⟨rb.width, (appliedTransform cfg.transform).2.2.1, hw, ?_⟩
      unfold stepPos
      rw [hpr]
      exact if_pos hw
    · refine Or.inl ?_
      unfold stepPos
      rw [hpr]
      exact if_neg hw

theorem stepPos_advance (fontSize spacing : ℚ) (cfg : PairStepConfig)
    (k : PairKernel) (c : ℚ) (hfs : 0 ≤ fontSize) (hsp : 0 ≤ spacing) :
    c ≤ (stepPos fontSize spacing cfg k c).2 := by
  have hgap : 0 ≤ fontSize * spacing := mul_nonneg hfs hsp
  have hhalf : 0 ≤ fontSize * (1 / 2 : ℚ) := by
    have : (0 : ℚ) ≤ 1 / 2 := by norm_num
    exact mul_nonneg hfs this
  rcases stepPos_cases fontSize spacing cfg k c with h | ⟨w, dX, hw, h⟩ <;> rw [h]
  · show c ≤ c + fontSize * spacing + fontSize * (1 / 2)
    linarith
  · show c ≤ c + w + fontSize * spacing
    linarith

theorem layoutRun_center_lb (fontSize spacing : ℚ) (hfs : 0 ≤ fontSize)
    (hsp : 0 ≤ spacing) :
    ∀ (ps : List (PairStepConfig × PairKernel)) (c : ℚ) (i : ℕ) (a : PlacedPair),
      (layoutRun fontSize spacing c ps)[i]? = some (some a) →
      c + a.width / 2 + a.moveX ≤ a.center
  | [], c, i, a => by
      intro h
      simp [layoutRun] at h
  | p :: rest, c, i, a => by
      intro h
      cases i with
      | zero =>
          have hx : (stepPos fontSize spacing p.1 p.2 c).1 = some a := by
            have := List.getElem?_cons_zero
              (a := (stepPos fontSize spacing p.1 p.2 c).1)
              (l := layoutRun fontSize spacing
                (stepPos fontSize spacing p.1 p.2 c).2 rest)
            rw [show layoutRun fontSize spacing c (p :: rest) =
                  (stepPos fontSize spacing p.1 p.2 c).1 ::
                    layoutRun fontSize spacing
                      (stepPos fontSize spacing p.1 p.2 c).2 rest from rfl,
              this] at h
            exact Option.some.inj h
          rcases stepPos_cases fontSize spacing p.1 p.2 c with hs | ⟨w, dX, hw, hs⟩
          · rw [hs] at hx
            exact absurd hx (by simp)
          · rw [hs] at hx
            have ha : a = ⟨c + w / 2 + dX, w, dX⟩ := (Option.some.inj hx).symm
            rw [ha]
      | succ i =>
          have h' : (layoutRun fontSize spacing
              (stepPos fontSize spacing p.1 p.2 c).2 rest)[i]? = some (some a) := by
            rw [show layoutRun fontSize spacing c (p :: rest) =
                  (stepPos fontSize spacing p.1 p.2 c).1 ::
                    layoutRun fontSize spacing
                      (stepPos fontSize spacing p.1 p.2 c).2 rest from rfl,
              List.getElem?_cons_succ] at h
            exact h
          have ihl := layoutRun_center_lb fontSize spacing hfs hsp rest
            (stepPos fontSize spacing p.1 p.2 c).2 i a h'
          have hadv := stepPos_advance fontSize spacing p.1 p.2 c hfs hsp
          linarith

theorem layoutRun_mono (fontSize spacing : ℚ) (hfs : 0 ≤ fontSize)
    (hsp : 0 ≤ spacing) :
    ∀ (ps : List (PairStepConfig × PairKernel)) (c : ℚ) (i j : ℕ)
      (a b : PlacedPair), i < j →
      (layoutRun fontSize spacing c ps)[i]? = some (some a) →
      (layoutRun fontSize spacing c ps)[j]? = some (some b) →
      a.center + (a.width + b.width) / 2 + (b.moveX - a.moveX) ≤ b.center
  | [], c, i, j, a, b => by
      intro _ ha _
      simp [layoutRun] at ha
  | p :: rest, c, i, j, a, b => by
      intro hij ha hb
      rw [show layoutRun fontSize spacing c (p :: rest) =
            (stepPos fontSize spacing p.1 p.2 c).1 ::
              layoutRun fontSize spacing
                (stepPos fontSize spacing p.1 p.2 c).2 rest from rfl] at ha hb
      obtain ⟨j', rfl⟩ : ∃ j', j = j' + 1 := ⟨j - 1, by omega⟩
      rw [List.getElem?_cons_succ] at hb
      cases i with
      | zero =>
          rw [List.getElem?_cons_zero] at ha
          have hx : (stepPos fontSize spacing p.1 p.2 c).1 = some a :=
            Option.some.inj ha
          rcases stepPos_cases fontSize spacing p.1 p.2 c with hs | ⟨w, dX, hw, hs⟩
          · rw [hs] at hx
            exact absurd hx (by simp)
          · rw [hs] at hx
            have haa : a = ⟨c + w / 2 + dX, w, dX⟩ := (Option.some.inj hx).symm
            rw [hs] at hb
            have hlb := layoutRun_center_lb fontSize spacing hfs hsp rest
              (c + w + fontSize * spacing) j' b hb
            have hgap : 0 ≤ fontSize * spacing := mul_nonneg hfs hsp
            rw [haa]
            show (c + w / 2 + dX) + (w + b.width) / 2 + (b.moveX - dX) ≤ b.center
            linarith
      | succ i' =>
          rw [List.getElem?_cons_succ] at ha
          exact layoutRun_mono fontSize spacing hfs hsp rest
            (stepPos fontSize spacing p.1 p.2 c).2 i' j' a b (by omega) ha hb

/-- Claim C3 (amended): for every configuration with `spacing ≥ 0` (and a
nonnegative `fontSize`, as any valid font size is) and all positions
`i < j` that both produce geometry, the placed X-center of position `j` is
at least the placed X-center of position `i` plus half the sum of their
widths plus the difference `moveX_j − moveX_i` of the two per-pair move
offsets — each non-empty pair being placed at center
`cursor + width/2 + moveX` and the cursor advancing by `width + gap` with
`gap = fontSize * spacing`.  (Without the moveX correction term the bound
fails; see the counterexample.) -/
theorem layout_monotonic (fontSize spacing : ℚ)
    (ps : List (PairStepConfig × PairKernel)) (i j : ℕ) (a b : PlacedPair)
    (hfs : 0 ≤ fontSize) (hsp : 0 ≤ spacing) (hij : i < j)
    (ha : (generateLayout fontSize spacing ps)[i]? = some (some a))
    (hb : (generateLayout fontSize spacing ps)[j]? = some (some b)) :
    a.center + (a.width + b.width) / 2 + (b.moveX - a.moveX) ≤ b.center :=
  layoutRun_mono fontSize spacing hfs hsp ps 0 i j a b hij ha hb

/-- Witness for C3 at a concrete two-position run (`fontSize = 10`,
`spacing = 0`, both positions the unit box with no move offsets). -/
theorem layout_monotonic_witness :
    (PlacedPair.mk (1 / 2) 1 0).center +
        ((PlacedPair.mk (1 / 2) 1 0).width + (PlacedPair.mk (3 / 2) 1 0).width) / 2 +
        ((PlacedPair.mk (3 / 2) 1 0).moveX - (PlacedPair.mk (1 / 2) 1 0).moveX) ≤
      (PlacedPair.mk (3 / 2) 1 0).center :=
  layout_monotonic 10 0 [(cfgSingle, kSingle), (cfgSingle, kSingle)] 0 1
    (PlacedPair.mk (1 / 2) 1 0) (PlacedPair.mk (3 / 2) 1 0)
    (by norm_num) (le_refl 0) (by omega)
    (by norm_num [generateLayout, layoutRun, stepPos, pairResultAfterBridge,
      pairResult, appliedTransform, jsOrNum, cfgSingle, kSingle, boxUnit,
      Box3.width, transNone, bridgeOff])
    (by norm_num [generateLayout, layoutRun, stepPos, pairResultAfterBridge,
      pairResult, appliedTransform, jsOrNum, cfgSingle, kSingle, boxUnit,
      Box3.width, transNone, bridgeOff])

/-- Counterexample to C3 as stated: with `spacing = 0 ≥ 0`, a first
position configured with `moveX = 100` is placed at center `201/2` while
the second (at `moveX = 0`) is placed at center `3/2 < 201/2 + 1`:
the claimed no-overlap bound (without the moveX correction) is violated. -/
theorem layout_claim_cex :
    (generateLayout 10 0 [(cfgSingleMove, kSingle), (cfgSingle, kSingle)])[0]? =
        some (some (PlacedPair.mk (201 / 2) 1 100)) ∧
      (generateLayout 10 0 [(cfgSingleMove, kSingle), (cfgSingle, kSingle)])[1]? =
        some (some (PlacedPair.mk (3 / 2) 1 0)) ∧
      ¬((PlacedPair.mk (201 / 2) 1 100).center +
            ((PlacedPair.mk (201 / 2) 1 100).width +
              (PlacedPair.mk (3 / 2) 1 0).width) / 2 ≤
          (PlacedPair.mk (3 / 2) 1 0).center) := by
  refine ⟨?_, ?_, by norm_num⟩ <;>
    norm_num [generateLayout, layoutRun, stepPos, pairResultAfterBridge,
      pairResult, appliedTransform, jsOrNum, cfgSingle, cfgSingleMove, kSingle,
      boxUnit, Box3.width, transNone, transMove100, bridgeOff]

/-- Claim C4: for a position where both characters are non-space and both
rotated character solids were built, an intersection whose bounding-box
width or height is below `0.001` is discarded: the position emits no part
and the cursor advances by `gap + fontSize * 0.5` (the half-space filler)
instead of `width + gap`. -/
theorem degenerate_discarded (fontSize spacing c : ℚ) (cfg : PairStepConfig)
    (k : PairKernel) (b1 b2 ib : Box3)
    (h1 : cfg.c1Space = false) (h2 : cfg.c2Space = false)
    (hm1 : k.m1 = some b1) (hm2 : k.m2 = some b2) (hi : k.inter = some ib)
    (hdeg : ib.width < 1 / 1000 ∨ ib.height < 1 / 1000) :
    stepPos fontSize spacing cfg k c =
      (none, c + fontSize * spacing + fontSize * (1 / 2)) := by
  have hpr : pairResultAfterBridge cfg k = none := by
    unfold pairResultAfterBridge pairResult
    rw [h1, h2, hm1, hm2, hi]
    simp only [Bool.false_and, Bool.false_eq_true, if_false, if_pos hdeg]
  unfold stepPos
  rw [hpr]

/-- Witness for C4: both sides present (unit boxes) but the intersection
box has width `1/2000 < 0.001`; the position is skipped and the cursor
advances by the filler amount. -/
theorem degenerate_discarded_witness :
    stepPos 10 0 cfgBoth kDeg 0 = (none, 0 + 10 * 0 + 10 * (1 / 2)) :=
  degenerate_discarded 10 0 0 cfgBoth kDeg boxUnit boxUnit boxDeg rfl rfl rfl rfl
    rfl (Or.inl (by norm_num [boxDeg, Box3.width]))

/-- Claim C10: in the per-pair transform step, falsy configuration values
are coerced to defaults — a `scaleX`/`scaleY` equal to 0 or missing is
applied as scale factor 1, a missing `moveX`/`moveZ` is applied as 0 — so
a configured zero scale never collapses a pair's solid to zero volume
(the applied scale factors are never 0). -/
theorem falsy_transform_defaults (t : Transform2D) :
    ((t.scaleX = some 0 ∨ t.scaleX = none) → (appliedTransform t).1 = 1) ∧
      ((t.scaleY = some 0 ∨ t.scaleY = none) → (appliedTransform t).2.1 = 1) ∧
      (t.moveX = none → (appliedTransform t).2.2.1 = 0) ∧
      (t.moveZ = none → (appliedTransform t).2.2.2 = 0) ∧
      (appliedTransform t).1 ≠ 0 ∧ (appliedTransform t).2.1 ≠ 0 := by
  obtain ⟨sx, sy, mx, mz⟩ := t
  refine ⟨?_, ?_, ?_, ?_, ?_, ?_⟩
  · rintro (h | h) <;> simp_all [appliedTransform, jsOrNum]
  · rintro (h | h) <;> simp_all [appliedTransform, jsOrNum]
  · rintro h; simp_all [appliedTransform, jsOrNum]
  · rintro h; simp_all [appliedTransform, jsOrNum]
  · cases sx with
    | none => simp [appliedTransform, jsOrNum]
    | some x =>
        by_cases hx : x = 0 <;> simp [appliedTransform, jsOrNum, hx]
  · cases sy with
    | none => simp [appliedTransform, jsOrNum]
    | some y =>
        by_cases hy : y = 0 <;> simp [appliedTransform, jsOrNum, hy]

/-- Witness for C10 at the concrete transform
`{scaleX = 0, scaleY, moveX, moveZ missing}`. -/
theorem falsy_transform_defaults_witness :
    (appliedTransform ⟨some 0, none, none, none⟩).1 = 1 ∧
      (appliedTransform ⟨some 0, none, none, none⟩).2.1 = 1 ∧
      (appliedTransform ⟨some 0, none, none, none⟩).2.2.1 = 0 ∧
      (appliedTransform ⟨some 0, none, none, none⟩).2.2.2 = 0 ∧
      (appliedTransform ⟨some 0, none, none, none⟩).1 ≠ 0 := by
  have h := falsy_transform_defaults ⟨some 0, none, none, none⟩
  exact ⟨h.1 (Or.inl rfl), h.2.1 (Or.inr rfl), h.2.2.1 rfl, h.2.2.2.1 rfl,
    h.2.2.2.2.1⟩

/-! ## Assembly failure policy (C2) -/

/-- Claim C2 (amended): only a failure of the final union is fatal — it
aborts generation and surfaces `Final geometry merge failed: …` to the
caller — while a base-synthesis kernel failure is absorbed (logged) like
the per-position, per-support and per-bridge failures: generation
completes with the base contribution omitted. -/
theorem assembly_failure_policy (K : AssemblyKernel) (baseHeight : ℚ)
    (baseAttempt : Except String (Option Box3)) (parts : List Box3) :
    (∀ msg, K.unionAll (partsWithBase baseHeight baseAttempt parts) =
        Except.error msg →
      finalStage K baseHeight baseAttempt parts =
        Except.error (("Final geometry merge failed: ") ++ msg)) ∧
      (∀ s, K.unionAll (partsWithBase baseHeight baseAttempt parts) =
          Except.ok s →
        (finalStage K baseHeight baseAttempt parts).isOk = true) ∧
      (∀ e, baseAttempt = Except.error e →
        partsWithBase baseHeight baseAttempt parts = parts) := by
  refine ⟨?_, ?_, ?_⟩
  · intro msg hmsg
    unfold finalStage
    rw [hmsg]
  · intro s hs
    unfold finalStage
    rw [hs]
    rfl
  · intro e he
    unfold partsWithBase
    rw [he]
    split <;> rfl

/-- Witness for C2 at concrete inputs: union succeeds, base attempt is an
absorbed kernel error. -/
theorem assembly_failure_policy_witness :
    (finalStage K0 2 (Except.error ("boom")) [boxUnit]).isOk = true ∧
      partsWithBase 2 (Except.error ("boom")) [boxUnit] = [boxUnit] := by
  have h := assembly_failure_policy K0 2 (Except.error ("boom")) [boxUnit]
  exact ⟨h.2.1 boxUnit rfl, h.2.2 ("boom") rfl⟩

/-- Counterexample to C2 as stated: with `baseHeight = 2 > 0` and the base
synthesis failing with a kernel error (`Except.error`), generation does
not abort — the final stage still returns a successful result with the
base silently omitted. -/
theorem assembly_claim_cex :
    finalStage K0 2 (Except.error ("boom")) [boxUnit] =
      Except.ok (centerAtOrigin boxUnit) := rfl

end DualGen
